import Mathlib

/-!
# Verification of the UnrealCV client (`unrealcv_basic.py`)

Shallow embedding of the command/response client layer of `unrealcv_basic.py`:
command formatting, lock-guarded single and batched request exchange against a
transport oracle, connectivity polling, and the two binary image decoders.

Conventions of the embedding:

* Each client method is modelled as a pure function of a `Transport` oracle
  (the external `unrealcv.Client` object) returning the ordered trace of
  transport/lock events it performs, together with its parsed result.
* Machine numbers passed to command formatting are embedded at integer
  inputs (`Int`), where Python's rendering by f-string coincides with
  `toString`.
* Byte buffers are `List Nat` (one entry per byte); pixel arrays are nested
  lists in (row, column, channel) order, matching numpy's row-major layout.
* Fallible Python code (exceptions) is embedded with `Except String`.
-/

set_option autoImplicit false
set_option linter.unusedVariables false

namespace SimWorld

/-- A transport/lock event performed by a client method, in program order.
`acquire`/`release` are operations on the client's single `threading.Lock`;
`request`/`requestBatch` are calls into the transport; `sleep` is
`time.sleep`; `connect` is `self.client.connect()`. -/
inductive Event where
  | acquire
  | release
  | request (cmd : String)
  | requestBatch (cmds : List String)
  | sleep (seconds : Int)
  | connect
  deriving DecidableEq, Repr

/-- The external transport contract consumed by the client
(`unrealcv.Client`): a connectivity flag and request oracles.  The real
`request` returns text for text commands and bytes for binary (image)
commands; the embedding splits these into `request` and `request_bytes`. -/
structure Transport where
  isconnected : Bool
  request : String → String
  request_bytes : String → List Nat
  request_batch : List String → List String

/-- Numeric value of a list of decimal digit characters (most significant
first), as read by Python's number parsing. -/
def digitsVal (l : List Char) : Nat :=
  l.foldl (fun acc c => acc * 10 + (c.toNat - 48)) 0

/-- A Python list comprehension `[f x for x in l]` whose body may raise:
elements are processed left to right and the first raise aborts the whole
comprehension. -/
def mapExcept {α β : Type} (f : α → Except String β) : List α → Except String (List β)
  | [] => Except.ok []
  | a :: l =>
      match f a with
      | Except.error e => Except.error e
      | Except.ok b =>
          match mapExcept f l with
          | Except.error e => Except.error e
          | Except.ok bs => Except.ok (b :: bs)

/-- Embedding of Python `float(s)` restricted to plain decimal literals
(optional sign, digits, optional fractional part), returning the exact
rational `±(I.F) = ±(I*10^k + F)/10^k`.  Any other shape raises
`ValueError`. -/
def pyFloat (s : String) : Except String ℚ :=
  let cs := s.toList
  let signed : Bool × List Char :=
    match cs with
    | '-' :: rest => (true, rest)
    | '+' :: rest => (false, rest)
    | _ => (false, cs)
  let neg := signed.1
  let cs := signed.2
  let intPart := cs.takeWhile Char.isDigit
  let rest := cs.dropWhile Char.isDigit
  match rest with
  | [] =>
      if intPart.isEmpty then Except.error "ValueError" else
        Except.ok (mkRat
          (if neg then -(digitsVal intPart : Int) else (digitsVal intPart : Int))
          1)
  | '.' :: fracCs =>
      let fracPart := fracCs.takeWhile Char.isDigit
      let rest2 := fracCs.dropWhile Char.isDigit
      if rest2.isEmpty && !(intPart.isEmpty && fracPart.isEmpty) then
        let k := fracPart.length
        let m : Int :=
          ((digitsVal intPart * 10 ^ k + digitsVal fracPart : Nat) : Int)
        Except.ok (mkRat (if neg then -m else m) (10 ^ k))
      else Except.error "ValueError"
  | _ => Except.error "ValueError"

/-- Word splitter on a character stream: maximal runs of non-whitespace
characters, in order. -/
def pyWords (cs : List Char) : List (List Char) :=
  let step : Char → (List Char × List (List Char)) →
      (List Char × List (List Char)) :=
    fun c acc =>
      if c.isWhitespace then
        if acc.1.isEmpty then ([], acc.2) else ([], acc.1 :: acc.2)
      else (c :: acc.1, acc.2)
  let r := cs.foldr step ([], [])
  if r.1.isEmpty then r.2 else r.1 :: r.2

/-- Embedding of Python `s.split()`: split on whitespace runs, dropping
empty tokens. -/
def pySplit (s : String) : List String :=
  (pyWords s.toList).map (fun w => String.mk w)

/-- Embedding of `[float(i) for i in res.split()]`: a failing `float`
raises, aborting the whole comprehension. -/
def pyFloats (res : String) : Except String (List ℚ) :=
  mapExcept pyFloat (pySplit res)

/-- Embedding of `apply_action_transition` (`unrealcv_basic.py:192-213`).  Destructures
`action = [speed, duration, direction]`; a negative speed remaps the
direction code through the `if/elif` chain `0↦1, 1↦0, 2↦3, 3↦2` before the
command is formatted; then issues
`vbp <name> Move_Speed <speed> <duration> <direction>` under the lock and
sleeps for `duration`. -/
def apply_action_transition (T : Transport) (robot_name : String)
    (speed duration direction : Int) : List Event :=
  let direction :=
    if speed < 0 then
      if direction = 0 then 1
      else if direction = 1 then 0
      else if direction = 2 then 3
      else if direction = 3 then 2
      else direction
    else direction
  let cmd := s!"vbp {robot_name} Move_Speed {speed} {duration} {direction}"
  [Event.acquire, Event.request cmd, Event.release, Event.sleep duration]

/-- The direction permutation as the specification words it: for negative
speed the fixed pairing 0↔1, 2↔3, any other code passed through unchanged;
for non-negative speed the direction is unchanged. -/
def specMoveDirection (speed direction : Int) : Int :=
  if speed < 0 then
    if direction = 0 then 1
    else if direction = 1 then 0
    else if direction = 2 then 3
    else if direction = 3 then 2
    else direction
  else direction

/-- Splits a list into `count` consecutive chunks of `size` elements each:
the row-major grouping performed by a numpy `reshape` along one axis
(meaningful when the length is exactly `size * count`). -/
def chunks {α : Type} (size : Nat) : Nat → List α → List (List α)
  | 0, _ => []
  | count + 1, l => l.take size :: chunks size count (l.drop size)

/-- numpy `reshape(h, w, c)` of a flat byte vector: group into `h*w` pixels
of `c` bytes, then into `h` rows of `w` pixels (row-major). -/
def reshape3 (h w c : Nat) (l : List Nat) : List (List (List Nat)) :=
  chunks w h (chunks c (h * w) l)

/-- Embedding of `decode_bmp` (`unrealcv_basic.py:366-379`).  `np.fromstring` reads the
buffer as one byte per entry; `img[-n:]` with `n = resolution[1] *
resolution[0] * channel` keeps the trailing `n` bytes (the whole buffer when
`n = 0`, since Python `-0 == 0`, or when the buffer is shorter than `n`);
`reshape(resolution[1], resolution[0], channel)` raises `ValueError` unless
the slice has exactly `n` entries; `img[:, :, :-1]` deletes the last
channel of every pixel.  `resolution` is the client's `(width, height)`
pair. -/
def decode_bmp (resolution : Nat × Nat) (res : List Nat) (channel : Nat) :
    Except String (List (List (List Nat))) :=
  let n := resolution.2 * resolution.1 * channel
  let img := if n = 0 then res else res.drop (res.length - n)
  if img.length = n then
    Except.ok ((reshape3 resolution.2 resolution.1 channel img).map
      (fun row => row.map (fun px => px.dropLast)))
  else
    Except.error "cannot reshape array"

/-- Embedding of `decode_png` (`unrealcv_basic.py:352-364`).  The container decode
(`PIL.Image.open` over `BytesIO` plus `np.asarray`) is the external image
library; its resulting array is this function's input.  Then
`img[:, :, :-1]` deletes the alpha channel and `img[:, :, ::-1]` reverses
the channel order of each pixel. -/
def decode_png (img : List (List (List Nat))) : List (List (List Nat)) :=
  (img.map (fun row => row.map (fun px => px.dropLast))).map
    (fun row => row.map (fun px => px.reverse))

/-- Python's rendering of a `bool` in an f-string. -/
def pyBoolStr (b : Bool) : String :=
  if b then "True" else "False"

/-- Embedding of `check_connection` (`unrealcv_basic.py:67-72`): while `isconnected()`
is false, print a notice, sleep one second and call `connect()` again.
`obs` is the sequence of successive `isconnected()` results observed by the
loop; the trace stops at the first `true`.  The function returns nothing
and raises nothing. -/
def check_connection : List Bool → List Event
  | [] => []
  | b :: rest =>
      if b then [] else Event.sleep 1 :: Event.connect :: check_connection rest

/-- Embedding of `spawn` (`unrealcv_basic.py:75-84`, deprecated in source). -/
def spawn (T : Transport) (prefab name : String) : List Event :=
  [Event.acquire, Event.request s!"vset /objects/spawn {prefab} {name}",
   Event.release]

/-- Embedding of `spawn_bp_asset` (`unrealcv_basic.py:86-95`). -/
def spawn_bp_asset (T : Transport) (prefab_path name : String) : List Event :=
  [Event.acquire,
   Event.request s!"vset /objects/spawn_bp_asset {prefab_path} {name}",
   Event.release]

/-- Embedding of `clean_garbage` (`unrealcv_basic.py:97-100`). -/
def clean_garbage (T : Transport) : List Event :=
  [Event.acquire, Event.request "vset /action/clean_garbage", Event.release]

/-- Embedding of `set_location` (`unrealcv_basic.py:102-112`): formats
`vset /object/<name>/location <x> <y> <z>` and issues it under the lock,
discarding the response.  The transport's connectivity is never consulted. -/
def set_location (T : Transport) (loc : Int × Int × Int) (name : String) :
    List Event :=
  [Event.acquire,
   Event.request s!"vset /object/{name}/location {loc.1} {loc.2.1} {loc.2.2}",
   Event.release]

/-- Embedding of `set_orientation` (`unrealcv_basic.py:114-124`). -/
def set_orientation (T : Transport) (orientation : Int × Int × Int)
    (name : String) : List Event :=
  [Event.acquire,
   Event.request
     s!"vset /object/{name}/rotation {orientation.1} {orientation.2.1} {orientation.2.2}",
   Event.release]

/-- Embedding of `set_scale` (`unrealcv_basic.py:126-136`). -/
def set_scale (T : Transport) (scale : Int × Int × Int) (name : String) :
    List Event :=
  [Event.acquire,
   Event.request s!"vset /object/{name}/scale {scale.1} {scale.2.1} {scale.2.2}",
   Event.release]

/-- Embedding of `enable_controller` (`unrealcv_basic.py:138-147`). -/
def enable_controller (T : Transport) (name : String) (ec : Bool) :
    List Event :=
  [Event.acquire, Event.request s!"vbp {name} EnableController {pyBoolStr ec}",
   Event.release]

/-- Embedding of `set_physics` (`unrealcv_basic.py:149-158`). -/
def set_physics (T : Transport) (actor_name : String) (hasPhysics : Bool) :
    List Event :=
  [Event.acquire,
   Event.request s!"vset /object/{actor_name}/physics {pyBoolStr hasPhysics}",
   Event.release]

/-- Embedding of `set_collision` (`unrealcv_basic.py:160-169`). -/
def set_collision (T : Transport) (actor_name : String) (hasCollision : Bool) :
    List Event :=
  [Event.acquire,
   Event.request s!"vset /object/{actor_name}/collision {pyBoolStr hasCollision}",
   Event.release]

/-- Embedding of `set_movable` (`unrealcv_basic.py:171-180`). -/
def set_movable (T : Transport) (actor_name : String) (isMovable : Bool) :
    List Event :=
  [Event.acquire,
   Event.request
     s!"vset /object/{actor_name}/object_mobility {pyBoolStr isMovable}",
   Event.release]

/-- Embedding of `destroy` (`unrealcv_basic.py:182-190`). -/
def destroy (T : Transport) (actor_name : String) : List Event :=
  [Event.acquire, Event.request s!"vset /object/{actor_name}/destroy",
   Event.release]

/-- Embedding of `apply_action_rotation` (`unrealcv_basic.py:215-226`). -/
def apply_action_rotation (T : Transport) (robot_name : String)
    (duration angle direction : Int) : List Event :=
  [Event.acquire,
   Event.request s!"vbp {robot_name} Rotate_Angle {duration} {angle} {direction}",
   Event.release, Event.sleep duration]

/-- Embedding of `get_objects` (`unrealcv_basic.py:228-237`): requests `vget /objects`
under the lock and splits the response on whitespace. -/
def get_objects (T : Transport) : List Event × List String :=
  ([Event.acquire, Event.request "vget /objects", Event.release],
   pySplit (T.request "vget /objects"))

/-- A JSON value as produced by `json.loads` (only the shapes relevant to
the collision response). -/
inductive Json where
  | str (s : String)
  | num (n : Int)
  | obj (fields : List (String × Json))

/-- Python dict subscript on a parsed JSON object: first binding of the
key. -/
def jsonGet (fields : List (String × Json)) (key : String) : Option Json :=
  (fields.find? (fun p => p.1 == key)).map (fun p => p.2)

/-- One integer literal (optional unary minus) at the head of the
character stream. -/
def parseIntLit (cs : List Char) : Option (Int × List Char) :=
  match cs with
  | '-' :: rest =>
      let ds := rest.takeWhile Char.isDigit
      if ds.isEmpty then none
      else some (-(digitsVal ds : Int), rest.dropWhile Char.isDigit)
  | _ =>
      let ds := cs.takeWhile Char.isDigit
      if ds.isEmpty then none
      else some ((digitsVal ds : Int), cs.dropWhile Char.isDigit)

/-- Remaining `+`/`-` chain of an additive expression; `fuel` bounds the
recursion by the stream length. -/
def parseAddChain : Nat → Int → List Char → Option Int
  | _, acc, [] => some acc
  | 0, _, _ => none
  | fuel + 1, acc, '+' :: rest =>
      match parseIntLit rest with
      | some (n, r) => parseAddChain fuel (acc + n) r
      | none => none
  | fuel + 1, acc, '-' :: rest =>
      match parseIntLit rest with
      | some (n, r) => parseAddChain fuel (acc - n) r
      | none => none
  | _, _, _ => none

/-- Embedding of Python `eval` restricted to integer additive expressions
(`"5"`, `"2+3"`, ...).  Any other text raises. -/
def pyEval (s : String) : Except String Int :=
  match parseIntLit s.toList with
  | some (n, rest) =>
      match parseAddChain rest.length n rest with
      | some v => Except.ok v
      | none => Except.error "SyntaxError"
  | none => Except.error "SyntaxError"

/-- Embedding of `get_total_collision` (`unrealcv_basic.py:239-251`): requests
`vbp <name> GetCollisionNum` under the lock, then evaluates
`eval(json.loads(res)['TotalCollision'])`.  The JSON text parse performed
by the `json` library is external; its resulting value is the `res`
argument.  A missing key raises `KeyError`; `eval` of a non-string raises
`TypeError`. -/
def get_total_collision (T : Transport) (name : String) (res : Json) :
    List Event × Except String Int :=
  ([Event.acquire, Event.request s!"vbp {name} GetCollisionNum", Event.release],
   match res with
   | Json.obj fields =>
       match jsonGet fields "TotalCollision" with
       | some (Json.str s) => pyEval s
       | some _ => Except.error "TypeError"
       | none => Except.error "KeyError"
   | _ => Except.error "TypeError")

/-- Embedding of `get_location` (`unrealcv_basic.py:253-266`): issues
`vget /object/<name>/location` under the lock and parses the
whitespace-separated response into floats. -/
def get_location (T : Transport) (actor_name : String) :
    List Event × Except String (List ℚ) :=
  ([Event.acquire, Event.request s!"vget /object/{actor_name}/location",
    Event.release],
   pyFloats (T.request s!"vget /object/{actor_name}/location"))

/-- Embedding of `get_location_batch` (`unrealcv_basic.py:268-282`): one location
command per actor name, issued as a single `request_batch` under one lock
acquisition; each response is parsed into floats. -/
def get_location_batch (T : Transport) (actor_names : List String) :
    List Event × Except String (List (List ℚ)) :=
  let cmd := actor_names.map
    (fun actor_name => s!"vget /object/{actor_name}/location")
  ([Event.acquire, Event.requestBatch cmd, Event.release],
   mapExcept pyFloats (T.request_batch cmd))

/-- Embedding of `get_orientation` (`unrealcv_basic.py:284-297`). -/
def get_orientation (T : Transport) (actor_name : String) :
    List Event × Except String (List ℚ) :=
  ([Event.acquire, Event.request s!"vget /object/{actor_name}/rotation",
    Event.release],
   pyFloats (T.request s!"vget /object/{actor_name}/rotation"))

/-- Embedding of `get_orientation_batch` (`unrealcv_basic.py:299-313`). -/
def get_orientation_batch (T : Transport) (actor_names : List String) :
    List Event × Except String (List (List ℚ)) :=
  let cmd := actor_names.map
    (fun actor_name => s!"vget /object/{actor_name}/rotation")
  ([Event.acquire, Event.requestBatch cmd, Event.release],
   mapExcept pyFloats (T.request_batch cmd))

/-- Embedding of `read_image` (`unrealcv_basic.py:325-350`).  `pil` is the external
container decode (`PIL.Image.open` over `BytesIO` plus `np.asarray`);
`imread` is `cv2.imread` on the returned file path.  An unknown `mode`
matches no branch, so no command is issued and `return image` raises
`UnboundLocalError`. -/
def read_image (T : Transport)
    (pil : List Nat → Except String (List (List (List Nat))))
    (imread : String → Except String (List (List (List Nat))))
    (resolution : Nat × Nat) (ip : String)
    (cam_id viewmode mode : String) :
    List Event × Except String (List (List (List Nat))) :=
  if mode = "direct" then
    ([Event.acquire,
      Event.request s!"vget /camera/{cam_id}/{viewmode} png", Event.release],
     (pil (T.request_bytes s!"vget /camera/{cam_id}/{viewmode} png")).map
       decode_png)
  else if mode = "file" then
    ([Event.acquire,
      Event.request s!"vget /camera/{cam_id}/{viewmode} {viewmode}{ip}.png",
      Event.release],
     imread (T.request s!"vget /camera/{cam_id}/{viewmode} {viewmode}{ip}.png"))
  else if mode = "fast" then
    ([Event.acquire,
      Event.request s!"vget /camera/{cam_id}/{viewmode} bmp", Event.release],
     decode_bmp resolution
       (T.request_bytes s!"vget /camera/{cam_id}/{viewmode} bmp") 4)
  else
    ([], Except.error "UnboundLocalError")

/-- A stub transport with fixed connectivity and constant responses. -/
def stubTransport (connected : Bool) (resp : String) : Transport :=
  ⟨connected, fun _ => resp, fun _ => [], fun cs => cs.map (fun _ => resp)⟩

/-!
## Lock discipline model

Threads are named by `Bool`.  A well-locked trace acquires the client's
single lock before any transport request and releases it after; an
interleaving of two traces is lock-respecting when `acquire` succeeds only
on a free lock and `release` only by the owner.
-/

/-- Predicate `scanOk depth tr`: scanning `tr` from lock depth `depth` (0 = not
held, 1 = held), every `request`/`requestBatch` happens at depth 1,
`acquire` only at depth 0, `release` only at depth 1, and the trace ends
with the lock released. -/
def scanOk (depth : Nat) : List Event → Bool
  | [] => depth == 0
  | Event.acquire :: es => depth == 0 && scanOk 1 es
  | Event.release :: es => depth == 1 && scanOk 0 es
  | Event.request _ :: es => depth == 1 && scanOk depth es
  | Event.requestBatch _ :: es => depth == 1 && scanOk depth es
  | Event.sleep _ :: es => scanOk depth es
  | Event.connect :: es => scanOk depth es

/-- An interleaving of two threads' event traces, each kept in program
order; entries are tagged with the emitting thread. -/
inductive Interleave : List Event → List Event → List (Bool × Event) → Prop
  | nil : Interleave [] [] []
  | left {e : Event} {a b : List Event} {m : List (Bool × Event)} :
      Interleave a b m → Interleave (e :: a) b ((false, e) :: m)
  | right {e : Event} {a b : List Event} {m : List (Bool × Event)} :
      Interleave a b m → Interleave a (e :: b) ((true, e) :: m)

/-- Predicate `lockOk o m`: starting from lock owner `o`, every `acquire` in `m`
happens on a free lock and every `release` is by the current owner — the
semantics of the client's single mutual-exclusion lock. -/
def lockOk (o : Option Bool) : List (Bool × Event) → Bool
  | [] => true
  | (t, Event.acquire) :: r => o == none && lockOk (some t) r
  | (t, Event.release) :: r => o == some t && lockOk none r
  | (_, _) :: r => lockOk o r

/-- Predicate `reqOwned o m`: every `request`/`requestBatch` in `m` is performed by
the thread that owns the lock at that point — no other thread's command
can fall inside a lock-held section. -/
def reqOwned (o : Option Bool) : List (Bool × Event) → Bool
  | [] => true
  | (t, Event.acquire) :: r => reqOwned (some t) r
  | (_, Event.release) :: r => reqOwned none r
  | (t, Event.request _) :: r => o == some t && reqOwned o r
  | (t, Event.requestBatch _) :: r => o == some t && reqOwned o r
  | (_, _) :: r => reqOwned o r

/-- Lock depth of thread `t`'s own trace when the owner is `o`. -/
def dOf (o : Option Bool) (t : Bool) : Nat :=
  if o == some t then 1 else 0

end SimWorld

namespace SimWorld

/-- Claim C1: the movement action issues exactly the command
`vbp <name> Move_Speed <speed> <duration> <direction>` under the lock (then
sleeps), where the direction is the claim's permutation: paired 0↔1, 2↔3
when the speed is negative, codes outside {0,1,2,3} passed through
unchanged, and the direction unchanged when the speed is non-negative. -/
theorem movement_direction_remap (T : Transport) (name : String)
    (speed duration direction : Int) :
    apply_action_transition T name speed duration direction =
      [Event.acquire,
       Event.request
         s!"vbp {name} Move_Speed {speed} {duration} {specMoveDirection speed direction}",
       Event.release, Event.sleep duration] ∧
    (speed < 0 →
      (specMoveDirection speed 0 = 1 ∧ specMoveDirection speed 1 = 0 ∧
       specMoveDirection speed 2 = 3 ∧ specMoveDirection speed 3 = 2) ∧
      (direction ≠ 0 → direction ≠ 1 → direction ≠ 2 → direction ≠ 3 →
        specMoveDirection speed direction = direction)) ∧
    (0 ≤ speed → specMoveDirection speed direction = direction) := by
  refine ⟨rfl, ?_, ?_⟩
  · intro hs
    refine ⟨?_, ?_⟩
    · simp [specMoveDirection, hs]
    · intro h0 h1 h2 h3
      simp [specMoveDirection, hs, h0, h1, h2, h3]
  · intro hs
    simp [specMoveDirection, not_lt.mpr hs]

/-- Witness for C1 at a concrete input (`speed = -1`, direction 0 remapped
to 1). -/
theorem movement_direction_remap_witness :
    apply_action_transition
        ⟨true, fun _ => "", fun _ => [], fun _ => []⟩ "Robot1" (-1) 2 0 =
      [Event.acquire, Event.request "vbp Robot1 Move_Speed -1 2 1",
       Event.release, Event.sleep 2] ∧
    ((-1 : Int) < 0 →
      (specMoveDirection (-1) 0 = 1 ∧ specMoveDirection (-1) 1 = 0 ∧
       specMoveDirection (-1) 2 = 3 ∧ specMoveDirection (-1) 3 = 2) ∧
      ((0 : Int) ≠ 0 → (0 : Int) ≠ 1 → (0 : Int) ≠ 2 → (0 : Int) ≠ 3 →
        specMoveDirection (-1) 0 = 0)) := by
  have h := movement_direction_remap
    ⟨true, fun _ => "", fun _ => [], fun _ => []⟩ "Robot1" (-1) 2 0
  exact ⟨h.1, h.2.1⟩

theorem chunks_length {α : Type} (size count : Nat) (l : List α) :
    (chunks size count l).length = count := by
  induction count generalizing l with
  | zero => rfl
  | succ c ih => simp [chunks, ih]

theorem chunks_getD {α : Type} (size count : Nat) (l : List α) (i : Nat)
    (hi : i < count) :
    (chunks size count l).getD i [] = (l.drop (size * i)).take size := by
  induction count generalizing l i with
  | zero => omega
  | succ c ih =>
    cases i with
    | zero => simp [chunks]
    | succ i =>
      show (chunks size c (l.drop size)).getD i [] = _
      rw [ih (l.drop size) i (by omega), List.drop_drop]
      have : size + size * i = size * (i + 1) := by ring
      rw [this]

theorem getD_map_of_lt {α β : Type} (f : α → β) (l : List α) (i : Nat)
    (hi : i < l.length) (d : α) (e : β) :
    (l.map f).getD i e = f (l.getD i d) := by
  rw [List.getD_eq_getElem _ _ (by simpa using hi), List.getD_eq_getElem _ _ hi,
    List.getElem_map]

theorem chunks_elem {α : Type} (size count : Nat) (l : List α) (d : α)
    (hl : l.length = size * count) (i j : Nat) (hi : i < count) (hj : j < size) :
    ((chunks size count l).getD i []).getD j d = l.getD (size * i + j) d := by
  rw [chunks_getD size count l i hi]
  have hmul : size * (i + 1) ≤ size * count := Nat.mul_le_mul_left size (by omega)
  have hsucc : size * (i + 1) = size * i + size := by ring
  have hbound : size * i + size ≤ l.length := by omega
  have hlen1 : ((l.drop (size * i)).take size).length = size := by
    simp [List.length_take, List.length_drop]
    omega
  rw [List.getD_eq_getElem _ _ (by omega : j < ((l.drop (size * i)).take size).length),
    List.getD_eq_getElem _ _ (by omega : size * i + j < l.length)]
  rw [List.getElem_take, List.getElem_drop]

theorem reshape3_elem (h w c : Nat) (l : List Nat) (hl : l.length = h * w * c)
    (i j k : Nat) (hi : i < h) (hj : j < w) (hk : k < c) :
    (((reshape3 h w c l).getD i []).getD j []).getD k 0 =
      l.getD ((i * w + j) * c + k) 0 := by
  have hpix_len : (chunks c (h * w) l).length = h * w := chunks_length _ _ _
  have houter : ((chunks w h (chunks c (h * w) l)).getD i []).getD j [] =
      (chunks c (h * w) l).getD (w * i + j) [] :=
    chunks_elem w h (chunks c (h * w) l) [] (by rw [hpix_len]; ring) i j hi hj
  have hinner : ((chunks c (h * w) l).getD (w * i + j) []).getD k 0 =
      l.getD (c * (w * i + j) + k) 0 := by
    refine chunks_elem c (h * w) l 0 (by rw [hl]; ring) (w * i + j) k ?_ hk
    calc w * i + j < w * i + w := by omega
    _ = w * (i + 1) := by ring
    _ ≤ w * h := Nat.mul_le_mul_left w (by omega)
    _ = h * w := by ring
  rw [reshape3, houter, hinner]
  congr 1
  ring

theorem reshape3_row_length (h w c : Nat) (l : List Nat)
    (hl : l.length = h * w * c) (i : Nat) (hi : i < h) :
    ((reshape3 h w c l).getD i []).length = w := by
  rw [reshape3, chunks_getD w h _ i hi]
  have hpix_len : (chunks c (h * w) l).length = h * w := chunks_length _ _ _
  have hmul : w * (i + 1) ≤ w * h := Nat.mul_le_mul_left w (by omega)
  have hsucc : w * (i + 1) = w * i + w := by ring
  simp [List.length_take, List.length_drop, hpix_len]
  have : w * h = h * w := by ring
  omega

theorem reshape3_px_length (h w c : Nat) (l : List Nat)
    (hl : l.length = h * w * c) (i j : Nat) (hi : i < h) (hj : j < w) :
    (((reshape3 h w c l).getD i []).getD j []).length = c := by
  have hpix_len : (chunks c (h * w) l).length = h * w := chunks_length _ _ _
  have houter : ((chunks w h (chunks c (h * w) l)).getD i []).getD j [] =
      (chunks c (h * w) l).getD (w * i + j) [] :=
    chunks_elem w h (chunks c (h * w) l) [] (by rw [hpix_len]; ring) i j hi hj
  rw [reshape3, houter]
  have hp : w * i + j < h * w := by
    calc w * i + j < w * i + w := by omega
    _ = w * (i + 1) := by ring
    _ ≤ w * h := Nat.mul_le_mul_left w (by omega)
    _ = h * w := by ring
  rw [chunks_getD c (h * w) l _ hp]
  have hmul : c * (w * i + j + 1) ≤ c * (h * w) := Nat.mul_le_mul_left c (by omega)
  have hsucc : c * (w * i + j + 1) = c * (w * i + j) + c := by ring
  simp [List.length_take, List.length_drop]
  have : c * (h * w) = h * w * c := by ring
  omega

/-- Claim C2: with positive configured resolution `(w, h)` and channel count
`c`, on any buffer of length at least `w*h*c` the raw decoder succeeds,
uses only the trailing `w*h*c` bytes, and returns an `(h, w, c-1)` array
whose entries are the corresponding input bytes with the last channel
dropped. -/
theorem decode_bmp_trailing_spec (w h c : Nat) (buf : List Nat)
    (hw : 0 < w) (hh : 0 < h) (hc : 0 < c) (hlen : h * w * c ≤ buf.length) :
    ∃ out, decode_bmp (w, h) buf c = Except.ok out ∧
      out.length = h ∧
      (∀ i, i < h → (out.getD i []).length = w) ∧
      (∀ i j, i < h → j < w → ((out.getD i []).getD j []).length = c - 1) ∧
      (∀ i j k, i < h → j < w → k < c - 1 →
        ((out.getD i []).getD j []).getD k 0 =
          buf.getD (buf.length - h * w * c + ((i * w + j) * c + k)) 0) := by
  have hn : 0 < h * w * c := by positivity
  have hne : ¬ (h * w * c = 0) := by omega
  have himg_len : (buf.drop (buf.length - h * w * c)).length = h * w * c := by
    rw [List.length_drop]
    omega
  have hdec : decode_bmp (w, h) buf c =
      Except.ok ((reshape3 h w c (buf.drop (buf.length - h * w * c))).map
        (fun row => row.map (fun px => px.dropLast))) := by
    have e1 : decode_bmp (w, h) buf c =
        (if (if h * w * c = 0 then buf
             else buf.drop (buf.length - h * w * c)).length = h * w * c
         then Except.ok
            ((reshape3 h w c
                (if h * w * c = 0 then buf
                 else buf.drop (buf.length - h * w * c))).map
              (fun row => row.map (fun px => px.dropLast)))
         else Except.error "cannot reshape array") := rfl
    rw [e1]
    simp only [if_neg hne]
    rw [if_pos himg_len]
  set img : List Nat := buf.drop (buf.length - h * w * c) with himg
  refine ⟨_, hdec, ?_, ?_, ?_, ?_⟩
  · rw [List.length_map, reshape3, chunks_length]
  · intro i hi
    have hrows : (reshape3 h w c img).length = h := by
      rw [reshape3, chunks_length]
    rw [getD_map_of_lt _ _ i (by omega) []]
    rw [List.length_map]
    exact reshape3_row_length h w c img himg_len i hi
  · intro i j hi hj
    have hrows : (reshape3 h w c img).length = h := by
      rw [reshape3, chunks_length]
    rw [getD_map_of_lt _ _ i (by omega) []]
    have hrow_len : ((reshape3 h w c img).getD i []).length = w :=
      reshape3_row_length h w c img himg_len i hi
    rw [getD_map_of_lt _ _ j (by omega) []]
    rw [List.length_dropLast, reshape3_px_length h w c img himg_len i j hi hj]
  · intro i j k hi hj hk
    have hrows : (reshape3 h w c img).length = h := by
      rw [reshape3, chunks_length]
    rw [getD_map_of_lt _ _ i (by omega) []]
    have hrow_len : ((reshape3 h w c img).getD i []).length = w :=
      reshape3_row_length h w c img himg_len i hi
    rw [getD_map_of_lt _ _ j (by omega) []]
    have hpx_len : (((reshape3 h w c img).getD i []).getD j []).length = c :=
      reshape3_px_length h w c img himg_len i j hi hj
    have hk1 : k < (((reshape3 h w c img).getD i []).getD j []).dropLast.length := by
      rw [List.length_dropLast]
      omega
    have hk2 : k < (((reshape3 h w c img).getD i []).getD j []).length := by omega
    have hdl : ((((reshape3 h w c img).getD i []).getD j []).dropLast).getD k 0 =
        (((reshape3 h w c img).getD i []).getD j []).getD k 0 :=
      calc ((((reshape3 h w c img).getD i []).getD j []).dropLast).getD k 0
          = (((reshape3 h w c img).getD i []).getD j []).dropLast[k] :=
            List.getD_eq_getElem _ _ hk1
        _ = (((reshape3 h w c img).getD i []).getD j [])[k] :=
            List.getElem_dropLast _ _ _
        _ = (((reshape3 h w c img).getD i []).getD j []).getD k 0 :=
            (List.getD_eq_getElem _ _ hk2).symm
    rw [hdl, reshape3_elem h w c img himg_len i j k hi hj (by omega)]
    have hidx : (i * w + j) * c + k < h * w * c := by
      have h1 : i * w + j + 1 ≤ h * w := by
        calc i * w + j + 1 ≤ i * w + w := by omega
        _ = (i + 1) * w := by ring
        _ ≤ h * w := Nat.mul_le_mul_right w (by omega)
      calc (i * w + j) * c + k < (i * w + j) * c + c := by omega
      _ = (i * w + j + 1) * c := by ring
      _ ≤ h * w * c := Nat.mul_le_mul_right c h1
    -- identify the byte of the trailing slice with the byte of the buffer
    have hA : (i * w + j) * c + k < img.length := by omega
    have hB : buf.length - h * w * c + ((i * w + j) * c + k) < buf.length := by
      omega
    calc img.getD ((i * w + j) * c + k) 0
        = img[(i * w + j) * c + k] := List.getD_eq_getElem _ _ hA
      _ = buf[buf.length - h * w * c + ((i * w + j) * c + k)] :=
          List.getElem_drop buf
      _ = buf.getD (buf.length - h * w * c + ((i * w + j) * c + k)) 0 :=
          (List.getD_eq_getElem _ _ hB).symm

/-- Witness for C2: a 2×1 image with 2 channels; the buffer `[1,2,3,4]`
decodes to `[[[1],[3]]]` (last channel dropped). -/
theorem decode_bmp_trailing_spec_witness :
    ∃ out, decode_bmp (2, 1) [1, 2, 3, 4] 2 = Except.ok out ∧
      out.length = 1 ∧
      (∀ i, i < 1 → (out.getD i []).length = 2) ∧
      (∀ i j, i < 1 → j < 2 → ((out.getD i []).getD j []).length = 2 - 1) ∧
      (∀ i j k, i < 1 → j < 2 → k < 2 - 1 →
        ((out.getD i []).getD j []).getD k 0 =
          [1, 2, 3, 4].getD ([1, 2, 3, 4].length - 1 * 2 * 2 + ((i * 2 + j) * 2 + k)) 0) :=
  decode_bmp_trailing_spec 2 1 2 [1, 2, 3, 4] (by decide) (by decide) (by decide)
    (by decide)

/-- Claim C3: applying `decode_png` on an `(h, w, 4)` array returns an `(h, w, 3)`
array with the alpha channel removed and the remaining channels in reverse
container order: output channel `k` is input channel `2 - k`. -/
theorem decode_png_spec (img : List (List (List Nat))) (h w : Nat)
    (hh : img.length = h)
    (hw : ∀ i, i < h → (img.getD i []).length = w)
    (hc : ∀ i j, i < h → j < w → ((img.getD i []).getD j []).length = 4) :
    (decode_png img).length = h ∧
    (∀ i, i < h → ((decode_png img).getD i []).length = w) ∧
    (∀ i j, i < h → j < w → (((decode_png img).getD i []).getD j []).length = 3) ∧
    (∀ i j k, i < h → j < w → k < 3 →
      (((decode_png img).getD i []).getD j []).getD k 0 =
        ((img.getD i []).getD j []).getD (2 - k) 0) := by
  have hlen : (decode_png img).length = h := by
    simp [decode_png, hh]
  have hrow : ∀ i, i < h → ((decode_png img).getD i []).length = w := by
    intro i hi
    have hi1 : i < img.length := by omega
    have hi2 : i < (decode_png img).length := by omega
    rw [List.getD_eq_getElem _ _ hi2]
    simp only [decode_png, List.getElem_map, List.length_map]
    have hgi : img.getD i [] = img[i] := List.getD_eq_getElem _ _ hi1
    rw [← hgi]
    exact hw i hi
  have hpxeq : ∀ i j, i < h → j < w →
      (((decode_png img).getD i []).getD j []) =
        (((img.getD i []).getD j []).dropLast).reverse := by
    intro i j hi hj
    have hi1 : i < img.length := by omega
    have hgi : img.getD i [] = img[i] := List.getD_eq_getElem _ _ hi1
    have hwi : (img[i]).length = w := by
      rw [← hgi]
      exact hw i hi
    have hi2 : i < (decode_png img).length := by omega
    rw [List.getD_eq_getElem _ _ hi2]
    simp only [decode_png, List.getElem_map]
    have hj2 : j < (((img[i]).map (fun px => px.dropLast)).map
        (fun px => px.reverse)).length := by
      simp only [List.length_map]
      omega
    rw [List.getD_eq_getElem _ _ hj2]
    simp only [List.getElem_map]
    rw [hgi, List.getD_eq_getElem _ _ (show j < (img[i]).length by omega)]
  refine ⟨hlen, hrow, ?_, ?_⟩
  · intro i j hi hj
    rw [hpxeq i j hi hj, List.length_reverse, List.length_dropLast,
      hc i j hi hj]
  · intro i j k hi hj hk
    rw [hpxeq i j hi hj]
    have hpx4 : ((img.getD i []).getD j []).length = 4 := hc i j hi hj
    have hdl_len : (((img.getD i []).getD j []).dropLast).length = 3 := by
      rw [List.length_dropLast, hpx4]
    have h1 : k < (((img.getD i []).getD j []).dropLast).reverse.length := by
      rw [List.length_reverse, hdl_len]
      omega
    have h2 : 2 - k < ((img.getD i []).getD j []).length := by omega
    have h3 : (((img.getD i []).getD j []).dropLast).length - 1 - k = 2 - k := by
      omega
    calc (((img.getD i []).getD j []).dropLast).reverse.getD k 0
        = (((img.getD i []).getD j []).dropLast).reverse[k] :=
          List.getD_eq_getElem _ _ h1
      _ = (((img.getD i []).getD j []).dropLast)[(((img.getD i []).getD j []).dropLast).length - 1 - k] :=
          List.getElem_reverse h1
      _ = (((img.getD i []).getD j []).dropLast)[2 - k] := by
          simp only [h3]
      _ = ((img.getD i []).getD j [])[2 - k] :=
          List.getElem_dropLast _ _ _
      _ = ((img.getD i []).getD j []).getD (2 - k) 0 :=
          (List.getD_eq_getElem _ _ h2).symm

/-- Witness for C3: the single pixel `[3, 2, 1, 9]` (engine RGB `1,2,3`
stored in reversed+alpha form) decodes to `[1, 2, 3]`. -/
theorem decode_png_spec_witness :
    (decode_png [[[3, 2, 1, 9]]]).length = 1 ∧
    (∀ i, i < 1 → ((decode_png [[[3, 2, 1, 9]]]).getD i []).length = 1) ∧
    (∀ i j, i < 1 → j < 1 →
      (((decode_png [[[3, 2, 1, 9]]]).getD i []).getD j []).length = 3) ∧
    (∀ i j k, i < 1 → j < 1 → k < 3 →
      (((decode_png [[[3, 2, 1, 9]]]).getD i []).getD j []).getD k 0 =
        (([[[3, 2, 1, 9]]].getD i []).getD j []).getD (2 - k) 0) :=
  decode_png_spec [[[3, 2, 1, 9]]] 1 1 (by decide)
    (by intro i hi; interval_cases i <;> decide)
    (by intro i j hi hj; interval_cases i <;> interval_cases j <;> decide)

theorem mapExcept_ok_length {α β : Type} (f : α → Except String β) :
    ∀ (l : List α) (out : List β), mapExcept f l = Except.ok out →
      out.length = l.length := by
  intro l
  induction l with
  | nil =>
      intro out h
      simp only [mapExcept] at h
      cases h
      rfl
  | cons a l ih =>
      intro out h
      simp only [mapExcept] at h
      cases hfa : f a with
      | error e =>
          simp only [hfa] at h
          cases h
      | ok b =>
          simp only [hfa] at h
          cases hml : mapExcept f l with
          | error e =>
              simp only [hml] at h
              cases h
          | ok bs =>
              simp only [hml] at h
              cases h
              simp [ih bs hml]

theorem mapExcept_ok_getD {α β : Type} (f : α → Except String β) :
    ∀ (l : List α) (out : List β), mapExcept f l = Except.ok out →
      ∀ (i : Nat), i < l.length → ∀ (d : α) (e : β),
        f (l.getD i d) = Except.ok (out.getD i e) := by
  intro l
  induction l with
  | nil =>
      intro out h i hi d e
      simp at hi
  | cons a l ih =>
      intro out h i hi d e
      simp only [mapExcept] at h
      cases hfa : f a with
      | error er =>
          simp only [hfa] at h
          cases h
      | ok b =>
          simp only [hfa] at h
          cases hml : mapExcept f l with
          | error er =>
              simp only [hml] at h
              cases h
          | ok bs =>
              simp only [hml] at h
              cases h
              cases i with
              | zero => simpa using hfa
              | succ i =>
                  simpa using ih bs hml i (by simpa using hi) d e

/-- Claim C4: the batch pose queries build one command per identifier in
input order, issue them as a single `request_batch` under one lock
acquisition, and return the parses of the responses index-aligned with the
input: the i-th output is the parse of the i-th response. -/
theorem batch_query_order (T : Transport) (actor_names : List String) :
    ((get_location_batch T actor_names).1 =
        [Event.acquire,
         Event.requestBatch
           (actor_names.map (fun a => "vget /object/" ++ a ++ "/location")),
         Event.release] ∧
      (∀ i, i < actor_names.length →
        (actor_names.map
            (fun a => "vget /object/" ++ a ++ "/location")).getD i "" =
          "vget /object/" ++ actor_names.getD i "" ++ "/location") ∧
      (get_location_batch T actor_names).2 =
        mapExcept pyFloats
          (T.request_batch
            (actor_names.map (fun a => "vget /object/" ++ a ++ "/location"))) ∧
      (∀ out, (get_location_batch T actor_names).2 = Except.ok out →
        out.length =
          (T.request_batch
            (actor_names.map
              (fun a => "vget /object/" ++ a ++ "/location"))).length ∧
        (∀ i, i <
            (T.request_batch
              (actor_names.map
                (fun a => "vget /object/" ++ a ++ "/location"))).length →
          pyFloats
            ((T.request_batch
              (actor_names.map
                (fun a => "vget /object/" ++ a ++ "/location"))).getD i "") =
            Except.ok (out.getD i [])))) ∧
    ((get_orientation_batch T actor_names).1 =
        [Event.acquire,
         Event.requestBatch
           (actor_names.map (fun a => "vget /object/" ++ a ++ "/rotation")),
         Event.release] ∧
      (∀ i, i < actor_names.length →
        (actor_names.map
            (fun a => "vget /object/" ++ a ++ "/rotation")).getD i "" =
          "vget /object/" ++ actor_names.getD i "" ++ "/rotation") ∧
      (get_orientation_batch T actor_names).2 =
        mapExcept pyFloats
          (T.request_batch
            (actor_names.map (fun a => "vget /object/" ++ a ++ "/rotation"))) ∧
      (∀ out, (get_orientation_batch T actor_names).2 = Except.ok out →
        out.length =
          (T.request_batch
            (actor_names.map
              (fun a => "vget /object/" ++ a ++ "/rotation"))).length ∧
        (∀ i, i <
            (T.request_batch
              (actor_names.map
                (fun a => "vget /object/" ++ a ++ "/rotation"))).length →
          pyFloats
            ((T.request_batch
              (actor_names.map
                (fun a => "vget /object/" ++ a ++ "/rotation"))).getD i "") =
            Except.ok (out.getD i [])))) := by
  refine ⟨⟨rfl, ?_, rfl, ?_⟩, ⟨rfl, ?_, rfl, ?_⟩⟩
  · intro i hi
    exact getD_map_of_lt _ actor_names i hi "" ""
  · intro out hout
    exact ⟨mapExcept_ok_length pyFloats _ out hout,
      fun i hi => mapExcept_ok_getD pyFloats _ out hout i
        (by simpa using hi) "" []⟩
  · intro i hi
    exact getD_map_of_lt _ actor_names i hi "" ""
  · intro out hout
    exact ⟨mapExcept_ok_length pyFloats _ out hout,
      fun i hi => mapExcept_ok_getD pyFloats _ out hout i
        (by simpa using hi) "" []⟩

/-- Witness for C4 at a two-element batch with a stub transport. -/
theorem batch_query_order_witness :
    ∀ out,
      (get_location_batch (stubTransport true "1.0 2.0 3.0") ["A", "B"]).2 =
        Except.ok out →
      out.length =
        ((stubTransport true "1.0 2.0 3.0").request_batch
          (["A", "B"].map (fun a => "vget /object/" ++ a ++ "/location"))).length :=
  fun out hout =>
    ((batch_query_order (stubTransport true "1.0 2.0 3.0") ["A", "B"]).1.2.2.2
      out hout).1

/-- Claim C7: the operation `get_location` issues the single command
`vget /object/<name>/location` under the lock and parses the
whitespace-separated response into a numeric vector; a response
`"1.0 2.0 3.0"` yields `[1, 2, 3]`. -/
theorem get_location_spec (T : Transport) (actor_name : String) :
    (get_location T actor_name).1 =
      [Event.acquire,
       Event.request ("vget /object/" ++ actor_name ++ "/location"),
       Event.release] ∧
    (get_location T actor_name).2 =
      pyFloats (T.request ("vget /object/" ++ actor_name ++ "/location")) ∧
    (T.request ("vget /object/" ++ actor_name ++ "/location") =
        "1.0 2.0 3.0" →
      (get_location T actor_name).2 = Except.ok [1, 2, 3]) := by
  refine ⟨rfl, rfl, ?_⟩
  intro hresp
  show pyFloats
    (T.request ("vget /object/" ++ actor_name ++ "/location")) = _
  rw [hresp]
  rfl

/-- Witness for C7: the stub transport answering `"1.0 2.0 3.0"`. -/
theorem get_location_spec_witness :
    (get_location (stubTransport true "1.0 2.0 3.0") "Robot1").2 =
      Except.ok [1, 2, 3] :=
  (get_location_spec (stubTransport true "1.0 2.0 3.0") "Robot1").2.2 rfl

/-- Claim C9: the operation `get_total_collision` evaluates the `TotalCollision` field of
the JSON response as a Python expression: any string field whose
expression evaluates to `n` yields `n`; the numeric literal `"5"` yields
`5`, and — being expression evaluation, not numeric parsing — `"2+3"`
also yields `5`. -/
theorem collision_eval_spec (T : Transport) (name : String) :
    (∀ fields s n, jsonGet fields "TotalCollision" = some (Json.str s) →
      pyEval s = Except.ok n →
      (get_total_collision T name (Json.obj fields)).2 = Except.ok n) ∧
    (∀ res, (get_total_collision T name res).1 =
      [Event.acquire, Event.request ("vbp " ++ name ++ " GetCollisionNum"),
       Event.release]) ∧
    (get_total_collision T name
        (Json.obj [("TotalCollision", Json.str "5")])).2 = Except.ok 5 ∧
    (get_total_collision T name
        (Json.obj [("TotalCollision", Json.str "2+3")])).2 = Except.ok 5 := by
  refine ⟨?_, fun res => rfl, rfl, rfl⟩
  intro fields s n h1 h2
  simp only [get_total_collision, h1]
  exact h2

/-- Witness for C9 at the literal response field `"5"`. -/
theorem collision_eval_spec_witness :
    (get_total_collision (stubTransport true "") "X"
        (Json.obj [("TotalCollision", Json.str "5")])).2 = Except.ok 5 :=
  (collision_eval_spec (stubTransport true "") "X").1
    [("TotalCollision", Json.str "5")] "5" 5 rfl rfl

/-- Claim C10: calling `read_image` with a mode outside
`{direct, file, fast}` matches no branch: no command is issued (empty
trace) and `return image` raises `UnboundLocalError`. -/
theorem read_image_unknown_mode (T : Transport)
    (pil : List Nat → Except String (List (List (List Nat))))
    (imread : String → Except String (List (List (List Nat))))
    (resolution : Nat × Nat) (ip cam_id viewmode mode : String)
    (h1 : mode ≠ "direct") (h2 : mode ≠ "file") (h3 : mode ≠ "fast") :
    read_image T pil imread resolution ip cam_id viewmode mode =
      ([], Except.error "UnboundLocalError") := by
  simp only [read_image, if_neg h1, if_neg h2, if_neg h3]

/-- Witness for C10 at the unknown mode `"gif"`. -/
theorem read_image_unknown_mode_witness :
    read_image (stubTransport true "") (fun _ => Except.error "PIL")
      (fun _ => Except.error "imread") (320, 240) "127.0.0.1" "0" "lit"
      "gif" = ([], Except.error "UnboundLocalError") :=
  read_image_unknown_mode _ _ _ _ _ _ _ _ (by decide) (by decide) (by decide)

/-- Claim C6, counterexample: the claim that every command-issuing
operation checks connectivity first is false: `set_location` issues its
command even when the transport reports not-connected. -/
theorem connectivity_not_checked_counterexample :
    (stubTransport false "").isconnected = false ∧
    Event.request "vset /object/Robot1/location 1 2 3" ∈
      set_location (stubTransport false "") (1, 2, 3) "Robot1" :=
  ⟨rfl, by decide⟩

/-- Claim C6, amended: only the initialization-time `check_connection`
polls: while `isconnected()` is false it sleeps one second and reconnects,
without bound, issuing no command and surfacing no error; ordinary
command-issuing operations such as `set_location` ignore connectivity and
issue their command regardless. -/
theorem connectivity_poll_amended :
    (∀ n : Nat, check_connection (List.replicate n false) =
      (List.replicate n [Event.sleep 1, Event.connect]).flatten) ∧
    (∀ obs cmd, Event.request cmd ∉ check_connection obs) ∧
    (∀ obs cmds, Event.requestBatch cmds ∉ check_connection obs) ∧
    (∀ c₁ c₂ req rb reqb loc name,
      set_location ⟨c₁, req, rb, reqb⟩ loc name =
        set_location ⟨c₂, req, rb, reqb⟩ loc name) ∧
    (∀ T loc name, ∃ cmd, Event.request cmd ∈ set_location T loc name) := by
  refine ⟨?_, ?_, ?_, fun c₁ c₂ req rb reqb loc name => rfl, ?_⟩
  · intro n
    induction n with
    | zero => rfl
    | succ n ih => simp [check_connection, List.replicate_succ, ih]
  · intro obs cmd
    induction obs with
    | nil => simp [check_connection]
    | cons b rest ih =>
        cases b with
        | false => simp [check_connection, ih]
        | true => simp [check_connection]
  · intro obs cmds
    induction obs with
    | nil => simp [check_connection]
    | cons b rest ih =>
        cases b with
        | false => simp [check_connection, ih]
        | true => simp [check_connection]
  · intro T loc name
    exact ⟨_, List.Mem.tail _ (List.Mem.head _)⟩

/-- Witness for C6 (amended): two failed polls produce exactly two
sleep/reconnect rounds, polling issues no command, and `set_location`
issues a command while disconnected. -/
theorem connectivity_poll_amended_witness :
    (check_connection (List.replicate 2 false) =
      (List.replicate 2 [Event.sleep 1, Event.connect]).flatten) ∧
    (Event.request "vget /objects" ∉
      check_connection [false, false, true]) ∧
    (∃ cmd, Event.request cmd ∈
      set_location (stubTransport false "") (1, 2, 3) "Robot1") :=
  ⟨connectivity_poll_amended.1 2,
   connectivity_poll_amended.2.1 [false, false, true] "vget /objects",
   connectivity_poll_amended.2.2.2.2 (stubTransport false "") (1, 2, 3)
     "Robot1"⟩

/-- Unfolding equation of `decode_bmp`. -/
theorem decode_bmp_eq (w h c : Nat) (buf : List Nat) :
    decode_bmp (w, h) buf c =
      (if (if h * w * c = 0 then buf
           else buf.drop (buf.length - h * w * c)).length = h * w * c
       then Except.ok
          ((reshape3 h w c
              (if h * w * c = 0 then buf
               else buf.drop (buf.length - h * w * c))).map
            (fun row => row.map (fun px => px.dropLast)))
       else Except.error "cannot reshape array") := rfl

/-- Claim C8, counterexample: the claim that a buffer shorter than
`w*h*c` still decodes without an error is false: a 5-byte buffer at
resolution (2,2) with 4 channels makes the reshape raise. -/
theorem short_buffer_raises_counterexample :
    decode_bmp (2, 2) [0, 0, 0, 0, 0] 4 =
      Except.error "cannot reshape array" := rfl

/-- Claim C8, amended: the raw decoder never validates the buffer against
the configured resolution: any buffer of length at least `w*h*c` decodes
normally (possibly garbled, using the trailing bytes), while a shorter
buffer makes the reshape raise an error. -/
theorem decode_bmp_mismatch_amended (w h c : Nat) (buf : List Nat)
    (hn : 0 < h * w * c) :
    (h * w * c ≤ buf.length →
      ∃ out, decode_bmp (w, h) buf c = Except.ok out) ∧
    (buf.length < h * w * c →
      decode_bmp (w, h) buf c = Except.error "cannot reshape array") := by
  constructor
  · intro hlen
    refine ⟨(reshape3 h w c (buf.drop (buf.length - h * w * c))).map
      (fun row => row.map (fun px => px.dropLast)), ?_⟩
    rw [decode_bmp_eq]
    simp only [if_neg (show ¬ (h * w * c = 0) by omega)]
    rw [if_pos (show (buf.drop (buf.length - h * w * c)).length = h * w * c by
      rw [List.length_drop]; omega)]
  · intro hlt
    rw [decode_bmp_eq]
    simp only [if_neg (show ¬ (h * w * c = 0) by omega)]
    have hcond : ¬ ((buf.drop (buf.length - h * w * c)).length = h * w * c) := by
      rw [List.length_drop]
      omega
    rw [if_neg hcond]

/-- Witness for C8 (amended): a 15-byte buffer at resolution (2,2) with
4 channels errors; a 16-byte buffer decodes. -/
theorem decode_bmp_mismatch_amended_witness :
    (decode_bmp (2, 2) (List.replicate 15 0) 4 =
      Except.error "cannot reshape array") ∧
    (∃ out, decode_bmp (2, 2) (List.replicate 16 0) 4 = Except.ok out) :=
  ⟨(decode_bmp_mismatch_amended 2 2 4 (List.replicate 15 0) (by decide)).2
      (by decide),
   (decode_bmp_mismatch_amended 2 2 4 (List.replicate 16 0) (by decide)).1
      (by decide)⟩

theorem mutex_core :
    ∀ (m : List (Bool × Event)) (a b : List Event) (o : Option Bool),
      Interleave a b m →
      scanOk (dOf o false) a = true →
      scanOk (dOf o true) b = true →
      lockOk o m = true →
      reqOwned o m = true := by
  intro m a b o hI
  induction hI generalizing o with
  | nil =>
      intro _ _ _
      rfl
  | @left e a b m hI ih =>
      intro ha hb hm
      cases e with
      | acquire =>
          simp only [scanOk, Bool.and_eq_true, beq_iff_eq] at ha
          simp only [lockOk, Bool.and_eq_true, beq_iff_eq] at hm
          obtain ⟨ho, hm⟩ := hm
          subst ho
          simp only [reqOwned]
          exact ih (some false) (by simpa [dOf] using ha.2)
            (by simpa [dOf] using hb) hm
      | release =>
          simp only [scanOk, Bool.and_eq_true, beq_iff_eq] at ha
          have ho : o = some false := by
            by_cases hq : o = some false
            · exact hq
            · exfalso
              have := ha.1
              simp [dOf, hq] at this
          subst ho
          simp only [lockOk, Bool.and_eq_true, beq_iff_eq] at hm
          simp only [reqOwned]
          exact ih none (by simpa [dOf] using ha.2)
            (by simpa [dOf] using hb) hm.2
      | request cmd =>
          simp only [scanOk, Bool.and_eq_true, beq_iff_eq] at ha
          have ho : o = some false := by
            by_cases hq : o = some false
            · exact hq
            · exfalso
              have := ha.1
              simp [dOf, hq] at this
          subst ho
          simp only [lockOk] at hm
          simp only [reqOwned, Bool.and_eq_true, beq_iff_eq]
          exact ⟨trivial, ih (some false) ha.2 hb hm⟩
      | requestBatch cmds =>
          simp only [scanOk, Bool.and_eq_true, beq_iff_eq] at ha
          have ho : o = some false := by
            by_cases hq : o = some false
            · exact hq
            · exfalso
              have := ha.1
              simp [dOf, hq] at this
          subst ho
          simp only [lockOk] at hm
          simp only [reqOwned, Bool.and_eq_true, beq_iff_eq]
          exact ⟨trivial, ih (some false) ha.2 hb hm⟩
      | sleep q =>
          simp only [scanOk] at ha
          simp only [lockOk] at hm
          simp only [reqOwned]
          exact ih o ha hb hm
      | connect =>
          simp only [scanOk] at ha
          simp only [lockOk] at hm
          simp only [reqOwned]
          exact ih o ha hb hm
  | @right e a b m hI ih =>
      intro ha hb hm
      cases e with
      | acquire =>
          simp only [scanOk, Bool.and_eq_true, beq_iff_eq] at hb
          simp only [lockOk, Bool.and_eq_true, beq_iff_eq] at hm
          obtain ⟨ho, hm⟩ := hm
          subst ho
          simp only [reqOwned]
          exact ih (some true) (by simpa [dOf] using ha)
            (by simpa [dOf] using hb.2) hm
      | release =>
          simp only [scanOk, Bool.and_eq_true, beq_iff_eq] at hb
          have ho : o = some true := by
            by_cases hq : o = some true
            · exact hq
            · exfalso
              have := hb.1
              simp [dOf, hq] at this
          subst ho
          simp only [lockOk, Bool.and_eq_true, beq_iff_eq] at hm
          simp only [reqOwned]
          exact ih none (by simpa [dOf] using ha)
            (by simpa [dOf] using hb.2) hm.2
      | request cmd =>
          simp only [scanOk, Bool.and_eq_true, beq_iff_eq] at hb
          have ho : o = some true := by
            by_cases hq : o = some true
            · exact hq
            · exfalso
              have := hb.1
              simp [dOf, hq] at this
          subst ho
          simp only [lockOk] at hm
          simp only [reqOwned, Bool.and_eq_true, beq_iff_eq]
          exact ⟨trivial, ih (some true) ha hb.2 hm⟩
      | requestBatch cmds =>
          simp only [scanOk, Bool.and_eq_true, beq_iff_eq] at hb
          have ho : o = some true := by
            by_cases hq : o = some true
            · exact hq
            · exfalso
              have := hb.1
              simp [dOf, hq] at this
          subst ho
          simp only [lockOk] at hm
          simp only [reqOwned, Bool.and_eq_true, beq_iff_eq]
          exact ⟨trivial, ih (some true) ha hb.2 hm⟩
      | sleep q =>
          simp only [scanOk] at hb
          simp only [lockOk] at hm
          simp only [reqOwned]
          exact ih o ha hb hm
      | connect =>
          simp only [scanOk] at hb
          simp only [lockOk] at hm
          simp only [reqOwned]
          exact ih o ha hb hm

/-- Claim C5: every command-issuing operation's trace holds the client's
single lock around its transport request (`scanOk 0`), and in any
lock-respecting interleaving of two well-locked traces every request is
performed by the thread owning the lock — commands from different threads
are never interleaved at the transport boundary, and the single
`requestBatch` of a batch operation is atomic with respect to the other
thread. -/
theorem mutual_exclusion_spec :
    (∀ (a b : List Event) (m : List (Bool × Event)),
      Interleave a b m → scanOk 0 a = true → scanOk 0 b = true →
      lockOk none m = true → reqOwned none m = true) ∧
    (∀ T prefab name, scanOk 0 (spawn T prefab name) = true) ∧
    (∀ T p name, scanOk 0 (spawn_bp_asset T p name) = true) ∧
    (∀ T, scanOk 0 (clean_garbage T) = true) ∧
    (∀ T loc name, scanOk 0 (set_location T loc name) = true) ∧
    (∀ T ort name, scanOk 0 (set_orientation T ort name) = true) ∧
    (∀ T sc name, scanOk 0 (set_scale T sc name) = true) ∧
    (∀ T name b, scanOk 0 (enable_controller T name b) = true) ∧
    (∀ T name b, scanOk 0 (set_physics T name b) = true) ∧
    (∀ T name b, scanOk 0 (set_collision T name b) = true) ∧
    (∀ T name b, scanOk 0 (set_movable T name b) = true) ∧
    (∀ T name, scanOk 0 (destroy T name) = true) ∧
    (∀ T name s d dir,
      scanOk 0 (apply_action_transition T name s d dir) = true) ∧
    (∀ T name d ang dir,
      scanOk 0 (apply_action_rotation T name d ang dir) = true) ∧
    (∀ T, scanOk 0 (get_objects T).1 = true) ∧
    (∀ T name res, scanOk 0 (get_total_collision T name res).1 = true) ∧
    (∀ T name, scanOk 0 (get_location T name).1 = true) ∧
    (∀ T names, scanOk 0 (get_location_batch T names).1 = true) ∧
    (∀ T name, scanOk 0 (get_orientation T name).1 = true) ∧
    (∀ T names, scanOk 0 (get_orientation_batch T names).1 = true) ∧
    (∀ T pil imread r ip cid vm mode,
      scanOk 0 (read_image T pil imread r ip cid vm mode).1 = true) := by
  refine ⟨?_, fun T p n => rfl, fun T p n => rfl, fun T => rfl,
    fun T l n => rfl, fun T o n => rfl, fun T s n => rfl,
    fun T n b => rfl, fun T n b => rfl, fun T n b => rfl, fun T n b => rfl,
    fun T n => rfl, fun T n s d dir => rfl, fun T n d a dir => rfl,
    fun T => rfl, fun T n r => rfl, fun T n => rfl, fun T ns => rfl,
    fun T n => rfl, fun T ns => rfl, ?_⟩
  · intro a b m hI ha hb hm
    exact mutex_core m a b none hI ha hb hm
  · intro T pil imread r ip cid vm mode
    by_cases h1 : mode = "direct"
    · simp [read_image, h1, scanOk]
    · by_cases h2 : mode = "file"
      · simp [read_image, h1, h2, scanOk]
      · by_cases h3 : mode = "fast"
        · simp [read_image, h1, h2, h3, scanOk]
        · simp [read_image, h1, h2, h3, scanOk]

/-- Witness for C5: the sequential interleaving of a `set_location` trace
and a `get_location` trace respects the lock and keeps every request under
its owner. -/
theorem mutual_exclusion_spec_witness :
    reqOwned none
      (((set_location (stubTransport true "") (1, 2, 3) "A").map
          (fun e => (false, e))) ++
        ((get_location (stubTransport true "1.0 2.0 3.0") "B").1.map
          (fun e => (true, e)))) = true := by
  refine mutual_exclusion_spec.1
    (set_location (stubTransport true "") (1, 2, 3) "A")
    (get_location (stubTransport true "1.0 2.0 3.0") "B").1 _ ?_ rfl rfl rfl
  exact Interleave.left (Interleave.left (Interleave.left
    (Interleave.right (Interleave.right (Interleave.right Interleave.nil)))))

end SimWorld
